import Mathlib

/-! Verification of the crawl-discovery, classification and batch-orchestration
pipeline of `analyzer.py` (website-company-analyzer).

The Python source is shallowly embedded: pure fragments become Lean
functions over `String` and `List`; every network interaction (HTTP fetch,
XML parse result, AI generation call) is an explicit parameter of the
function that performs it, so that each function is a deterministic map
from its inputs and its network environment to its outputs.  Python `set`
objects are modelled as duplicate-free lists in first-insertion order.
String primitives from Python (`in`, `startswith`, `lower`, slicing) are
re-implemented over `List Char` so that the kernel can evaluate them.
-/

/-! String helpers (Python string primitives) -/

/-- Boolean test that the first list is a prefix of the second. -/
def charListIsPre : List Char → List Char → Bool
  | [], _ => true
  | _ :: _, [] => false
  | a :: as, b :: bs => a == b && charListIsPre as bs

/-- Boolean test that `pat` occurs as a contiguous sublist. -/
def charListHasSub (pat : List Char) : List Char → Bool
  | [] => charListIsPre pat []
  | c :: rest => charListIsPre pat (c :: rest) || charListHasSub pat rest

/-- Python `pat in s` (substring containment). -/
def strContains (s pat : String) : Bool := charListHasSub pat.data s.data

/-- Python `s.startswith(pat)`. -/
def strStarts (s pat : String) : Bool := charListIsPre pat.data s.data

/-- Python `s[n:]` for nonnegative `n`. -/
def strDrop (s : String) (n : Nat) : String := String.mk (s.data.drop n)

/-- Python `s[:n]` for nonnegative `n` (used by the content truncations). -/
def strTakeN (s : String) (n : Nat) : String := String.mk (s.data.take n)

/-- Python `s.lower()`. -/
def strLower (s : String) : String := String.mk (s.data.map Char.toLower)

/-- Python `s.upper()`. -/
def strUpper (s : String) : String := String.mk (s.data.map Char.toUpper)

/-- Python `s.strip()`. -/
def strTrim (s : String) : String :=
  String.mk (((s.data.dropWhile Char.isWhitespace).reverse.dropWhile
    Char.isWhitespace).reverse)

/-- Python `sep.join(parts)`. -/
def strJoinSep (sep : String) : List String → String
  | [] => ""
  | [x] => x
  | x :: y :: rest => x ++ sep ++ strJoinSep sep (y :: rest)

/-! URL parsing (the slice of `urllib.parse` the source uses)

`urlparse(u).netloc` and `urlparse(u).path` are modelled for URLs of the
shapes the analyzer builds (`http://` / `https://` absolute URLs, and
scheme-less strings, whose netloc is empty and whose path is the string up
to any query or fragment).  `urljoin` is modelled for absolute references,
protocol-relative (`//…`), root-relative (`/…`) and plain relative
references, without `./`/`../` normalisation. -/

/-- Splits a URL into its scheme and the remainder after `scheme://`, when
the scheme is `http` or `https`; `none` for scheme-less strings. -/
def schemeSplit (url : String) : Option (String × String) :=
  if strStarts url "https://" then some ("https", strDrop url 8)
  else if strStarts url "http://" then some ("http", strDrop url 7)
  else none

/-- Python `urlparse(url).netloc` for the URL shapes above. -/
def netloc (url : String) : String :=
  match schemeSplit url with
  | some (_, rest) =>
      String.mk (rest.data.takeWhile (fun c => c != '/' && c != '?' && c != '#'))
  | none => ""

/-- Python `urlparse(url).path` for the URL shapes above. -/
def urlPath (url : String) : String :=
  match schemeSplit url with
  | some (_, rest) =>
      String.mk ((rest.data.dropWhile (fun c => c != '/' && c != '?' && c != '#')).takeWhile
        (fun c => c != '?' && c != '#'))
  | none => String.mk (url.data.takeWhile (fun c => c != '?' && c != '#'))

/-- The directory part of a path: everything up to and including the last
slash, or `/` when the path has no slash. -/
def dirPath (p : String) : String :=
  let kept := (p.data.reverse.dropWhile (fun c => c != '/')).reverse
  if kept = [] then "/" else String.mk kept

/-- Python `urljoin(base, href)` for the reference shapes above. -/
def urljoin (base href : String) : String :=
  if href == "" then base
  else if (schemeSplit href).isSome then href
  else if strStarts href "//" then
    (match schemeSplit base with
     | some (sch, _) => sch ++ ":"
     | none => "") ++ href
  else if strStarts href "/" then
    (match schemeSplit base with
     | some (sch, _) => sch ++ "://" ++ netloc base
     | none => "") ++ href
  else
    match schemeSplit base with
    | some (sch, _) => sch ++ "://" ++ netloc base ++ dirPath (urlPath base) ++ href
    | none => href

/-- Source `normalize_url`: strip whitespace and default the scheme to
`https` when none is present. -/
def normalize_url (url : String) : String :=
  let url := strTrim url
  if strStarts url "http://" || strStarts url "https://" then url
  else "https://" ++ url

/-! Categorizer (`categorize_urls`) -/

/-- The closed category enumeration: exactly the keys of the `categories`
dict in `categorize_urls`, in its insertion order. -/
inductive Category where
  | homepage | about | products | services | blog | case_studies
  | testimonials | pricing | contact | team | careers | news
  | resources | other
deriving DecidableEq, Repr

/-- All fourteen categories, in the dict's insertion order. -/
def allCategories : List Category :=
  [.homepage, .about, .products, .services, .blog, .case_studies,
   .testimonials, .pricing, .contact, .team, .careers, .news,
   .resources, .other]

/-- The `categories` dict of `categorize_urls`: one ordered URL list per
category key. -/
structure CategorizedSet where
  homepage : List String
  about : List String
  products : List String
  services : List String
  blog : List String
  case_studies : List String
  testimonials : List String
  pricing : List String
  contact : List String
  team : List String
  careers : List String
  news : List String
  resources : List String
  other : List String
deriving DecidableEq, Repr

/-- Dict lookup `categories[cat]`. -/
def getCat (c : CategorizedSet) : Category → List String
  | .homepage => c.homepage
  | .about => c.about
  | .products => c.products
  | .services => c.services
  | .blog => c.blog
  | .case_studies => c.case_studies
  | .testimonials => c.testimonials
  | .pricing => c.pricing
  | .contact => c.contact
  | .team => c.team
  | .careers => c.careers
  | .news => c.news
  | .resources => c.resources
  | .other => c.other

/-- The empty `categories` dict built at the top of `categorize_urls`. -/
def emptyCats : CategorizedSet :=
  ⟨[], [], [], [], [], [], [], [], [], [], [], [], [], []⟩

/-- Python `any(keyword in path for keyword in kws)`. -/
def keywordHit (path : String) (kws : List String) : Bool :=
  kws.any (fun k => strContains path k)

/-- The lower-cased path of a URL, as computed per URL in the loop body of
`categorize_urls` (`path = urlparse(url).path.lower()`). -/
def pathLower (url : String) : String := strLower (urlPath url)

/-- The if/elif classification chain of `categorize_urls`, giving the single
category a URL's list-append goes to. -/
def categoryOf (url : String) : Category :=
  let path := pathLower url
  if path == "/" || path == "/home" || path == "/index" then .homepage
  else if keywordHit path ["about", "company", "who-we-are"] then .about
  else if keywordHit path ["product", "solution"] then .products
  else if keywordHit path ["service", "offering"] then .services
  else if keywordHit path ["blog", "article", "post"] then .blog
  else if keywordHit path ["case-stud", "success", "customer"] then .case_studies
  else if keywordHit path ["testimonial", "review"] then .testimonials
  else if keywordHit path ["pricing", "price", "plan"] then .pricing
  else if keywordHit path ["contact", "reach"] then .contact
  else if keywordHit path ["team", "people", "staff"] then .team
  else if keywordHit path ["career", "job", "hiring"] then .careers
  else if keywordHit path ["news", "press"] then .news
  else if keywordHit path ["resource", "download", "guide"] then .resources
  else .other

/-- Appends a URL to the list held under one category key
(`categories[cat].append(url)`). -/
def appendCat (c : CategorizedSet) (cat : Category) (u : String) : CategorizedSet :=
  match cat with
  | .homepage => { c with homepage := c.homepage ++ [u] }
  | .about => { c with about := c.about ++ [u] }
  | .products => { c with products := c.products ++ [u] }
  | .services => { c with services := c.services ++ [u] }
  | .blog => { c with blog := c.blog ++ [u] }
  | .case_studies => { c with case_studies := c.case_studies ++ [u] }
  | .testimonials => { c with testimonials := c.testimonials ++ [u] }
  | .pricing => { c with pricing := c.pricing ++ [u] }
  | .contact => { c with contact := c.contact ++ [u] }
  | .team => { c with team := c.team ++ [u] }
  | .careers => { c with careers := c.careers ++ [u] }
  | .news => { c with news := c.news ++ [u] }
  | .resources => { c with resources := c.resources ++ [u] }
  | .other => { c with other := c.other ++ [u] }

/-- Source `categorize_urls`: the per-URL loop appending each URL to the
list of its first matching rule. -/
def categorize_urls (urls : List String) : CategorizedSet :=
  urls.foldl (fun c u => appendCat c (categoryOf u) u) emptyCats

/-! Priority Selector (`select_priority_urls`) -/

/-- The fixed priority table `priority_categories` of the source: category
and per-category limit, in walk order. -/
def priority_categories : List (Category × Nat) :=
  [(.homepage, 1), (.about, 2), (.products, 3), (.services, 2),
   (.pricing, 2), (.case_studies, 2), (.blog, 3), (.team, 1),
   (.resources, 1)]

/-- The `for category, limit in priority_categories` loop: extend the
accumulator with up to `limit` URLs of the category and stop as soon as the
accumulated length reaches `maxUrls`. -/
def selectLoop (c : CategorizedSet) (maxUrls : Nat) :
    List (Category × Nat) → List String → List String
  | [], acc => acc
  | (cat, limit) :: rest, acc =>
    let acc2 := acc ++ (getCat c cat).take limit
    if maxUrls ≤ acc2.length then acc2 else selectLoop c maxUrls rest acc2

/-- Source `select_priority_urls` (the source's default for `max_urls` is
15; the caller in `analyze_website` uses that default). -/
def select_priority_urls (c : CategorizedSet) (maxUrls : Nat) : List String :=
  (selectLoop c maxUrls priority_categories []).take maxUrls

/-- The full walk of the priority table with no global cap: the
concatenation, in table order, of each category's first `limit` URLs.  This
is the reference walk the spec describes; `select_priority_urls` is related
to it in the theorems below. -/
def priorityWalk (c : CategorizedSet) : List String :=
  (priority_categories.map (fun p => (getCat c p.1).take p.2)).flatten

/-! Sitemap Resolver (`parse_sitemap`)

A fetched-and-parsed sitemap document is modelled as the list of its
`<sitemap><loc>` texts (in document order) and the list of its
`<url><loc>` texts.  The network is a map from sitemap URL to
`Option SitemapDoc`; `none` covers a request exception, a non-200 status
and malformed XML alike — in all three cases the Python function
contributes `[]` for that node.

The Python function recurses with no depth guard; the only bound is the
interpreter's recursion limit, at which the recursive call raises
`RecursionError`.  That raise is caught by the `except` of the *caller's*
frame, which then abandons its remaining children and its own `<url>`
entries and returns the URLs accumulated so far.  The `fuel` parameter
models the remaining recursion budget: `parse_sitemap_aux` returns `none`
exactly when the call itself raises (budget exhausted), and a caller
observing `none` from a child aborts as the `except` clause does. -/

/-- A parsed sitemap document: child sitemap locations and page URL
locations. -/
structure SitemapDoc where
  childSitemaps : List String
  pageUrls : List String
deriving DecidableEq, Repr

/-- The `for sitemap in root.findall(...)` loop over child sitemaps: extend
the accumulator with each child's result; a child whose call raised
(`none`) aborts the loop, with the `Bool` recording that the enclosing
frame's `except` was entered. -/
def childLoop (f : String → Option (List String)) :
    List String → List String → List String × Bool
  | [], acc => (acc, false)
  | c :: rest, acc =>
    match f c with
    | none => (acc, true)
    | some l => childLoop f rest (acc ++ l)

/-- Source `parse_sitemap` under a recursion budget: `none` means this very
call raised `RecursionError` into its caller. -/
def parse_sitemap_aux (net : String → Option SitemapDoc) :
    Nat → String → Option (List String)
  | 0, _ => none
  | fuel + 1, url =>
    match net url with
    | none => some []
    | some doc =>
      match childLoop (parse_sitemap_aux net fuel) doc.childSitemaps [] with
      | (acc, true) => some acc
      | (acc, false) => some (acc ++ doc.pageUrls)

/-- Source `parse_sitemap` as called from the outside: the outermost call
has budget available, so it returns a list. -/
def parse_sitemap (net : String → Option SitemapDoc) (fuel : Nat)
    (url : String) : List String :=
  (parse_sitemap_aux net fuel url).getD []

/-! URL Frontier (`discover_all_urls`) -/

/-- Python `set.add`: sets are modelled as duplicate-free lists in
first-insertion order. -/
def insertUrl (l : List String) (u : String) : List String :=
  if u ∈ l then l else l ++ [u]

/-- Python `set.update(items)`. -/
def foldInsert (l : List String) (items : List String) : List String :=
  items.foldl insertUrl l

/-- The DOM-link phase of `discover_all_urls`: join each `href` against the
base URL and add it only when its netloc equals the base domain. -/
def addLinks (base : String) (hrefs : List String) (acc : List String) :
    List String :=
  hrefs.foldl
    (fun acc href =>
      if netloc (urljoin base href) == netloc base then
        insertUrl acc (urljoin base href)
      else acc)
    acc

/-- The two sitemap candidates `discover_all_urls` tries, in order. -/
def sitemapCandidates (domain : String) : List String :=
  ["https://" ++ domain ++ "/sitemap.xml",
   "https://" ++ domain ++ "/sitemap_index.xml"]

/-- The sitemap phase of `discover_all_urls`: for each candidate in order,
issue a GET (`status200` tells whether it returned HTTP 200; a request
exception behaves like a non-200 status, the loop moves on); on 200, parse
the sitemap, add every found URL to the set with no domain filter, and
`break`.  The second component records which candidates a GET was issued
for. -/
def sitemapPhase (status200 : String → Bool) (net : String → Option SitemapDoc)
    (fuel : Nat) : List String → List String → List String × List String
  | [], acc => (acc, [])
  | s :: rest, acc =>
    if status200 s then (foldInsert acc (parse_sitemap net fuel s), [s])
    else
      let p := sitemapPhase status200 net fuel rest acc
      (p.1, s :: p.2)

/-- The outcome of `discover_all_urls`: the discovered URL set (as a list
in insertion order) and the sitemap candidates a GET was issued for. -/
structure DiscoverOut where
  urls : List String
  attempted : List String
deriving DecidableEq, Repr

/-- Source `discover_all_urls`.  `soup` is `none` when the page fetch or
parse for the DOM failed, otherwise the list of `href` attribute values of
the page's anchors in document order. -/
def discover_all_urls (base : String) (soup : Option (List String))
    (status200 : String → Bool) (net : String → Option SitemapDoc)
    (fuel : Nat) : DiscoverOut :=
  let domain := netloc base
  let acc : List String :=
    match soup with
    | none => []
    | some hrefs => addLinks base hrefs []
  let p := sitemapPhase status200 net fuel (sitemapCandidates domain) acc
  ⟨p.1, p.2⟩

/-! Metadata discovery (`discover_metadata_files`) -/

/-- The fixed metadata file table of `discover_metadata_files`: name and
path under the domain. -/
def metadataFileTable : List (String × String) :=
  [("robots.txt", "/robots.txt"),
   ("sitemap.xml", "/sitemap.xml"),
   ("sitemap_index.xml", "/sitemap_index.xml"),
   ("humans.txt", "/humans.txt"),
   ("llms.txt", "/llms.txt"),
   ("ai.txt", "/ai.txt"),
   ("security.txt", "/.well-known/security.txt")]

/-- Source `discover_metadata_files`: `rawGet url` is the body text when
the GET returned HTTP 200 and `none` otherwise (a request exception behaves
the same, the loop continues); found entries keep their first 2000
characters. -/
def discover_metadata_files (rawGet : String → Option String)
    (base : String) : List (String × String) :=
  let domain := netloc base
  metadataFileTable.filterMap
    (fun np =>
      match rawGet ("https://" ++ domain ++ np.2) with
      | some body => some (np.1, strTakeN body 2000)
      | none => none)

/-! Site Analyzer (`analyze_website`) -/

/-- Source `get_page_content`: `pageText url` is the cleaned page text when
the GET returned HTTP 200 (`none` on non-200 or a request exception, which
the source turns into `None`); the result keeps at most `maxChars`
characters. -/
def get_page_content (pageText : String → Option String) (url : String)
    (maxChars : Nat) : Option String :=
  (pageText url).map (fun t => strTakeN t maxChars)

/-- One analyzed site, the dict `analyze_website` returns: the
`analysis` field is `none` when the generator produced no text.
`url_categories` is the dict comprehension keeping the nonempty
categories with their counts; `technologies` is the fingerprinter's opaque
pass-through. -/
structure SiteResult where
  url : String
  total_urls_discovered : Nat
  priority_urls_analyzed : List String
  metadata_files_found : List String
  url_categories : List (Category × Nat)
  technologies : List (String × List String)
  analysis : Option String
deriving DecidableEq, Repr

/-- The external world one `analyze_website` call runs against:
`technologies` is the result of the best-effort fingerprinter (empty on its
failure); `pageText` the cleaned text per fetched page URL; `soupLinks` the
page anchors' `href` values when the main-page DOM fetch and parse
succeeded; `rawGet` the body per metadata URL; `status200`, `net` and
`fuel` drive the frontier's sitemap phase; `generate` is the Text Generator
collaborator (`none` = failure). -/
structure AnalyzeEnv where
  technologies : List (String × List String)
  pageText : String → Option String
  soupLinks : Option (List String)
  rawGet : String → Option String
  status200 : String → Bool
  net : String → Option SitemapDoc
  fuel : Nat
  generate : String → Option String

/-- The composed prompt `analyze_website` submits to the generator (the
Python triple-quoted literal's leading indentation is not reproduced; the
embedded values and section texts are). -/
def analysisPrompt (url : String) (totalUrls pagesAnalyzed : Nat)
    (combined : String) : String :=
  "\nAnalyze the following comprehensive website content and create two detailed summaries about this company:\n\n"
  ++ "Website: " ++ url ++ "\n"
  ++ "Total URLs discovered: " ++ toString totalUrls ++ "\n"
  ++ "Pages analyzed: " ++ toString pagesAnalyzed ++ "\n\n"
  ++ "Content: " ++ combined ++ "\n\n"
  ++ "Please provide:\n\n**EXECUTIVE SUMMARY:**\nA concise overview covering:\n"
  ++ "1. What the company does (core business)\n2. Key products/services offered\n"
  ++ "3. Target market/customers\n4. Business model (if apparent)\n"
  ++ "5. Notable achievements or differentiators\n\n**DETAILED SUMMARY:**\n"
  ++ "A comprehensive analysis including:\n"
  ++ "- Specific product features and pricing details\n"
  ++ "- Market positioning and competitive advantages\n"
  ++ "- Customer success stories or case studies mentioned\n"
  ++ "- Technology stack or methodologies used\n"
  ++ "- Company culture, team, or leadership insights\n"
  ++ "- Recent developments, partnerships, or initiatives\n"
  ++ "- Any unique processes or proprietary approaches\n"
  ++ "- Content themes and focus areas from blog/resources\n\n"
  ++ "Keep both summaries professional and factual.\n"

/-- Source `analyze_website`.  The main-page fetch failing — or yielding
empty text, which Python's `if not main_content` also treats as absent —
is the only overall failure: every later step, the generator included,
still produces a `SiteResult` record. -/
def analyze_website (env : AnalyzeEnv) (url : String) : Option SiteResult :=
  let technologies := env.technologies
  match get_page_content env.pageText url 8000 with
  | none => none
  | some main_content =>
    if main_content == "" then none
    else
      let metadata := discover_metadata_files env.rawGet url
      let disc := discover_all_urls url env.soupLinks env.status200 env.net env.fuel
      let all_urls := disc.urls
      let categorized := categorize_urls all_urls
      let priority_urls := select_priority_urls categorized 15
      let all_content := ["MAIN PAGE CONTENT:\n" ++ main_content]
      let all_content :=
        if metadata.isEmpty then all_content
        else all_content ++
          ["METADATA FILES:\n" ++
            strJoinSep "\n\n" (metadata.map (fun nd => strUpper nd.1 ++ ":\n" ++ nd.2))]
      let all_content := all_content ++ priority_urls.filterMap (fun p =>
        match get_page_content env.pageText p 4000 with
        | some content =>
            if content == "" then none
            else some ("PAGE: " ++ p ++ "\n" ++ content)
        | none => none)
      let combined :=
        "\n\n" ++ String.join (List.replicate 50 "=") ++
          strJoinSep "\n\n" all_content
      let prompt :=
        analysisPrompt url all_urls.length (priority_urls.length + 1) combined
      let summary := env.generate prompt
      some { url := url
             total_urls_discovered := all_urls.length
             priority_urls_analyzed := priority_urls
             metadata_files_found := metadata.map (fun nd => nd.1)
             url_categories := allCategories.filterMap (fun cat =>
               let n := (getCat categorized cat).length
               if n == 0 then none else some (cat, n))
             technologies := technologies
             analysis := summary }

/-! Batch Orchestrator (`batch_analyze_websites`)

The checkpoint file is modelled as `Option (Option (List String))`:
`none` = the file does not exist; `some none` = the file exists but reading
or decoding it raises (the source's bare `except: pass`, leaving the
completed set empty); `some (some l)` = the file holds the identifier list
`l`.  The per-site analysis is a parameter `analyze`; the source's
`except` around the per-item body makes an in-item exception
indistinguishable from `analyze_website` returning `None`, so both are the
`none` case.  The run's final value records the worklist items iterated
(`processed`), the accumulators, the summary written at the end (`none`
when the run returned before the loop) and the checkpoint file's state
when the function returns. -/

/-- Loading the checkpoint: a missing or unreadable file leaves the
completed set empty. -/
def load_completed : Option (Option (List String)) → List String
  | none => []
  | some none => []
  | some (some l) => l

/-- Python truthiness of the `analysis` value: `None` and the empty string
are both falsy. -/
def truthyText : Option String → Bool
  | none => false
  | some s => !(s == "")

/-- The mutable loop state of `batch_analyze_websites`. -/
structure BatchState where
  processed : List String
  completed : List String
  all_results : List SiteResult
  failed_urls : List String
deriving DecidableEq, Repr

/-- One iteration of the `for url in pbar` loop: on a result carrying
generated text, record the result and mark the URL completed; otherwise —
result `None`, result without text, or an in-item exception — record the
URL as failed and continue. -/
def batch_step (analyze : String → Option SiteResult) (st : BatchState)
    (url : String) : BatchState :=
  let st := { st with processed := st.processed ++ [url] }
  match analyze url with
  | some r =>
    if truthyText r.analysis then
      { st with all_results := st.all_results ++ [r]
                completed := insertUrl st.completed url }
    else { st with failed_urls := st.failed_urls ++ [url] }
  | none => { st with failed_urls := st.failed_urls ++ [url] }

/-- The summary dict written to `batch_summary.json`. -/
structure BatchSummary where
  total_urls : Nat
  completed : Nat
  failed : Nat
  failed_urls : List String
  results : List SiteResult
deriving DecidableEq, Repr

/-- The observable outcome of one `batch_analyze_websites` run. -/
structure BatchRun where
  processed : List String
  completed : List String
  all_results : List SiteResult
  failed_urls : List String
  summary : Option BatchSummary
  checkpointAfter : Option (Option (List String))
deriving DecidableEq, Repr

/-- The filtered worklist `remaining_urls = [url for url in urls if url not
in completed_urls]`. -/
def remainingOf (urls : List String)
    (cp : Option (Option (List String))) : List String :=
  let completed0 := foldInsert [] (load_completed cp)
  urls.filter (fun u => !(completed0.contains u))

/-- Source `batch_analyze_websites` over an already-read worklist (the CSV
reading applies `normalize_url` per row before this logic runs).  An empty
worklist exits the process (`none`); an empty `remaining` returns before
the loop, leaving the checkpoint file untouched; otherwise the loop runs to
the end, the summary is written and the checkpoint file is removed. -/
def batch_analyze_websites (analyze : String → Option SiteResult)
    (urls : List String) (cp : Option (Option (List String))) :
    Option BatchRun :=
  if urls.isEmpty then none
  else
    let completed0 := foldInsert [] (load_completed cp)
    let remaining := urls.filter (fun u => !(completed0.contains u))
    if remaining.isEmpty then
      some { processed := [], completed := completed0, all_results := []
             failed_urls := [], summary := none, checkpointAfter := cp }
    else
      let st := remaining.foldl (batch_step analyze) ⟨[], completed0, [], []⟩
      some { processed := st.processed
             completed := st.completed
             all_results := st.all_results
             failed_urls := st.failed_urls
             summary := some ⟨urls.length, st.completed.length,
               st.failed_urls.length, st.failed_urls, st.all_results⟩
             checkpointAfter := none }

/-! Spec-side reference definitions

`specRules` and `specFirstMatch` follow the spec's words for the
Categorizer ("home in on the first matching rule in this fixed order"),
stated as an explicit ordered rule table walked with first-match-wins, to
be compared against the source's if/elif chain `categoryOf`. -/

/-- The spec's ordered rule table: each rule is a category and its
path test. -/
def specRules : List (Category × (String → Bool)) :=
  [(.homepage, fun p => p == "/" || p == "/home" || p == "/index"),
   (.about, fun p => keywordHit p ["about", "company", "who-we-are"]),
   (.products, fun p => keywordHit p ["product", "solution"]),
   (.services, fun p => keywordHit p ["service", "offering"]),
   (.blog, fun p => keywordHit p ["blog", "article", "post"]),
   (.case_studies, fun p => keywordHit p ["case-stud", "success", "customer"]),
   (.testimonials, fun p => keywordHit p ["testimonial", "review"]),
   (.pricing, fun p => keywordHit p ["pricing", "price", "plan"]),
   (.contact, fun p => keywordHit p ["contact", "reach"]),
   (.team, fun p => keywordHit p ["team", "people", "staff"]),
   (.careers, fun p => keywordHit p ["career", "job", "hiring"]),
   (.news, fun p => keywordHit p ["news", "press"]),
   (.resources, fun p => keywordHit p ["resource", "download", "guide"])]

/-- Walks an ordered rule table, first match wins: once a rule matches, no
later rule is tested. -/
def walkRules : List (Category × (String → Bool)) → String → Category
  | [], _ => .other
  | r :: rest, p => if r.2 p then r.1 else walkRules rest p

/-- The spec's classification: the category of the first rule in the table
whose test accepts the lower-cased path, defaulting to `other`. -/
def specFirstMatch (url : String) : Category :=
  walkRules specRules (pathLower url)

/-- Whether one worklist item counts as successfully analyzed in the batch
loop: a result record carrying truthy generated text
(`result and result.get('analysis')`). -/
def analyzeOk (analyze : String → Option SiteResult) (url : String) : Bool :=
  match analyze url with
  | some r => truthyText r.analysis
  | none => false

/-! Concrete environments used by the counterexamples and witnesses -/

/-- A sitemap index at `https://a.com/sitemap.xml` that lists itself as a
child sitemap and carries one leaf page URL. -/
def cyclicNet : String → Option SitemapDoc := fun u =>
  if u == "https://a.com/sitemap.xml" then
    some ⟨["https://a.com/sitemap.xml"], ["https://a.com/page1"]⟩
  else none

/-- A network where `https://a.com/sitemap.xml` answers 200. -/
def demoStat : String → Bool := fun s => s == "https://a.com/sitemap.xml"

/-- A sitemap at `https://a.com/sitemap.xml` listing one same-domain page
and one foreign-domain page. -/
def demoNet : String → Option SitemapDoc := fun s =>
  if s == "https://a.com/sitemap.xml" then
    some ⟨[], ["https://a.com/x", "https://other.com/z"]⟩
  else none

/-- A network for the fallback counterexample: `sitemap.xml` answers 200
with a sitemap contributing zero URLs, while `sitemap_index.xml` also
answers 200 and contains a URL. -/
def c2stat : String → Bool := fun s =>
  s == "https://d.com/sitemap.xml" || s == "https://d.com/sitemap_index.xml"

/-- The documents behind `c2stat`. -/
def c2net : String → Option SitemapDoc := fun s =>
  if s == "https://d.com/sitemap.xml" then some ⟨[], []⟩
  else if s == "https://d.com/sitemap_index.xml" then
    some ⟨[], ["https://d.com/hidden"]⟩
  else none

/-- A site whose main page fetch succeeds and whose generator fails. -/
def c3env : AnalyzeEnv :=
  ⟨[], fun _ => some "Main page text", none, fun _ => none, fun _ => false,
   fun _ => none, 0, fun _ => none⟩

/-- A site whose main page fetch and generator both succeed. -/
def envOkSite : AnalyzeEnv :=
  ⟨[], fun _ => some "Site content", none, fun _ => none, fun _ => false,
   fun _ => none, 0, fun _ => some "Generated analysis"⟩

/-- The end-to-end scenario's per-site analysis: `b.com`'s generator
fails, every other site succeeds. -/
def scenAnalyze (url : String) : Option SiteResult :=
  analyze_website (if url == normalize_url "b.com" then c3env else envOkSite) url

/-- A per-site analysis that always fails; the checkpoint example's
processed-item trace does not depend on outcomes. -/
def alwaysFail : String → Option SiteResult := fun _ => none

/-- A small concrete CategorizedSet for the selector witness. -/
def catsW : CategorizedSet :=
  ⟨["https://a.com/"], ["https://a.com/about"], ["https://a.com/product1"],
   [], [], [], [], [], ["https://a.com/contact"], [], [], [], [], []⟩

/-! Lemmas about the Categorizer -/

/-- Appending under one key changes exactly that key's list. -/
theorem getCat_appendCat (c : CategorizedSet) (cat cat' : Category) (u : String) :
    getCat (appendCat c cat u) cat' =
      if cat' = cat then getCat c cat ++ [u] else getCat c cat' := by
  cases cat <;> cases cat' <;> simp [appendCat, getCat]

/-- Every list of the initial dict is empty. -/
theorem getCat_emptyCats (cat : Category) : getCat emptyCats cat = [] := by
  cases cat <;> rfl

/-- Characterization of the categorize fold: each category's list is the
input filtered to the URLs classified into it, in input order. -/
theorem getCat_categorize_aux (urls : List String) (c : CategorizedSet)
    (cat : Category) :
    getCat (urls.foldl (fun c u => appendCat c (categoryOf u) u) c) cat =
      getCat c cat ++ urls.filter (fun u => categoryOf u == cat) := by
  induction urls generalizing c with
  | nil => simp
  | cons u t ih =>
    simp only [List.foldl_cons, ih, getCat_appendCat, List.filter_cons]
    by_cases h : categoryOf u = cat
    · simp [h]
    · simp [h, Ne.symm h]

/-- Specialization of the fold characterization to `categorize_urls`. -/
theorem getCat_categorize (urls : List String) (cat : Category) :
    getCat (categorize_urls urls) cat =
      urls.filter (fun u => categoryOf u == cat) := by
  rw [categorize_urls, getCat_categorize_aux, getCat_emptyCats, List.nil_append]

/-- The category list lengths sum to the input length: every URL lands in
exactly one bucket. -/
theorem categorize_length_sum (urls : List String) :
    (allCategories.map
      (fun cat => (getCat (categorize_urls urls) cat).length)).sum
      = urls.length := by
  simp only [getCat_categorize]
  induction urls with
  | nil => simp
  | cons u t ih =>
    cases h : categoryOf u <;>
      simp_all [allCategories, List.filter_cons, h] <;> omega

/-! Lemmas about the Priority Selector -/

/-- The selector loop's output extends its accumulator within the full
table walk, whatever the early-stop point. -/
theorem selectLoop_walk (c : CategorizedSet) (m : Nat)
    (table : List (Category × Nat)) :
    ∀ acc : List String,
      selectLoop c m table acc <+:
        acc ++ (table.map (fun p => (getCat c p.1).take p.2)).flatten := by
  induction table with
  | nil => intro acc; simp [selectLoop]
  | cons p rest ih =>
    intro acc
    obtain ⟨cat, limit⟩ := p
    simp only [selectLoop, List.map_cons, List.flatten_cons]
    by_cases h : m ≤ (acc ++ (getCat c cat).take limit).length
    · rw [if_pos h, ← List.append_assoc]
      exact List.prefix_append _ _
    · rw [if_neg h, ← List.append_assoc]
      exact ih (acc ++ (getCat c cat).take limit)

/-- The selector's output begins the full priority-table walk. -/
theorem select_is_walk_pre (c : CategorizedSet) (m : Nat) :
    select_priority_urls c m <+: priorityWalk c := by
  have h1 := List.take_prefix m (selectLoop c m priority_categories [])
  have h2 := selectLoop_walk c m priority_categories []
  rw [List.nil_append] at h2
  exact h1.trans h2

/-- Every URL of the walk lies in one of the nine table categories'
lists. -/
theorem priorityWalk_mem (c : CategorizedSet) (u : String)
    (hu : u ∈ priorityWalk c) :
    u ∈ c.homepage ∨ u ∈ c.about ∨ u ∈ c.products ∨ u ∈ c.services ∨
    u ∈ c.pricing ∨ u ∈ c.case_studies ∨ u ∈ c.blog ∨ u ∈ c.team ∨
    u ∈ c.resources := by
  simp only [priorityWalk, priority_categories, List.map_cons, List.map_nil,
    List.flatten_cons, List.flatten_nil, List.append_nil, List.mem_append,
    getCat] at hu
  rcases hu with h|h|h|h|h|h|h|h|h
  · exact Or.inl (List.mem_of_mem_take h)
  · exact Or.inr (Or.inl (List.mem_of_mem_take h))
  · exact Or.inr (Or.inr (Or.inl (List.mem_of_mem_take h)))
  · exact Or.inr (Or.inr (Or.inr (Or.inl (List.mem_of_mem_take h))))
  · exact Or.inr (Or.inr (Or.inr (Or.inr (Or.inl (List.mem_of_mem_take h)))))
  · exact Or.inr (Or.inr (Or.inr (Or.inr (Or.inr (Or.inl
      (List.mem_of_mem_take h))))))
  · exact Or.inr (Or.inr (Or.inr (Or.inr (Or.inr (Or.inr (Or.inl
      (List.mem_of_mem_take h)))))))
  · exact Or.inr (Or.inr (Or.inr (Or.inr (Or.inr (Or.inr (Or.inr (Or.inl
      (List.mem_of_mem_take h))))))))
  · exact Or.inr (Or.inr (Or.inr (Or.inr (Or.inr (Or.inr (Or.inr (Or.inr
      (List.mem_of_mem_take h))))))))

/-! Lemmas about the set model and the URL Frontier -/

/-- Membership after a set add. -/
theorem insertUrl_mem (l : List String) (v u : String) :
    u ∈ insertUrl l v ↔ u ∈ l ∨ u = v := by
  unfold insertUrl
  split
  · constructor
    · exact fun h => Or.inl h
    · rintro (h | rfl)
      · exact h
      · assumption
  · simp [List.mem_append]

/-- A set add keeps the list duplicate-free. -/
theorem insertUrl_nodup (l : List String) (u : String) (h : l.Nodup) :
    (insertUrl l u).Nodup := by
  unfold insertUrl
  split
  · exact h
  · rw [List.nodup_append]
    refine ⟨h, List.nodup_singleton u, ?_⟩
    intro a ha hb
    simp only [List.mem_singleton] at hb
    subst hb
    exact absurd ha (by assumption)

/-- A set update keeps the list duplicate-free. -/
theorem foldInsert_nodup (items : List String) :
    ∀ l : List String, l.Nodup → (foldInsert l items).Nodup := by
  induction items with
  | nil => intro l h; exact h
  | cons x t ih =>
    intro l h
    rw [foldInsert, List.foldl_cons]
    exact ih (insertUrl l x) (insertUrl_nodup l x h)

/-- Membership after a set update. -/
theorem foldInsert_mem (items : List String) :
    ∀ (l : List String) (u : String),
      u ∈ foldInsert l items ↔ u ∈ l ∨ u ∈ items := by
  induction items with
  | nil => intro l u; simp [foldInsert]
  | cons x t ih =>
    intro l u
    rw [foldInsert, List.foldl_cons]
    have h2 := ih (insertUrl l x) u
    rw [foldInsert] at h2
    rw [h2, insertUrl_mem]
    simp only [List.mem_cons]
    tauto

/-- The link phase keeps the accumulator duplicate-free. -/
theorem addLinks_nodup (base : String) (hrefs : List String) :
    ∀ acc : List String, acc.Nodup → (addLinks base hrefs acc).Nodup := by
  unfold addLinks
  induction hrefs with
  | nil => intro acc h; exact h
  | cons x t ih =>
    intro acc h
    rw [List.foldl_cons]
    split
    · exact ih _ (insertUrl_nodup _ _ h)
    · exact ih _ h

/-- Anything the link phase adds beyond its accumulator has the base
URL's netloc: the domain filter guards every DOM-link insertion. -/
theorem addLinks_mem (base : String) (hrefs : List String) :
    ∀ (acc : List String) (u : String),
      u ∈ addLinks base hrefs acc →
        u ∈ acc ∨ netloc u = netloc base := by
  unfold addLinks
  induction hrefs with
  | nil => intro acc u h; exact Or.inl h
  | cons x t ih =>
    intro acc u h
    rw [List.foldl_cons] at h
    by_cases hx : (netloc (urljoin base x) == netloc base) = true
    · rw [if_pos hx] at h
      rcases ih _ u h with h2 | h2
      · rcases (insertUrl_mem _ _ _).mp h2 with h3 | h3
        · exact Or.inl h3
        · subst h3
          exact Or.inr (by simpa using hx)
      · exact Or.inr h2
    · rw [if_neg hx] at h
      exact ih _ u h

/-- The sitemap phase keeps the accumulator duplicate-free. -/
theorem sitemapPhase_nodup (status200 : String → Bool)
    (net : String → Option SitemapDoc) (fuel : Nat)
    (cands : List String) :
    ∀ acc : List String, acc.Nodup →
      (sitemapPhase status200 net fuel cands acc).1.Nodup := by
  induction cands with
  | nil => intro acc h; exact h
  | cons s rest ih =>
    intro acc h
    rw [sitemapPhase]
    split
    · exact foldInsert_nodup _ _ h
    · exact ih acc h

/-- The frontier output is duplicate-free. -/
theorem discover_nodup (base : String) (soup : Option (List String))
    (status200 : String → Bool) (net : String → Option SitemapDoc)
    (fuel : Nat) :
    (discover_all_urls base soup status200 net fuel).urls.Nodup := by
  unfold discover_all_urls
  cases soup with
  | none => exact sitemapPhase_nodup _ _ _ _ _ List.nodup_nil
  | some hrefs =>
    exact sitemapPhase_nodup _ _ _ _ _ (addLinks_nodup base hrefs [] List.nodup_nil)

/-- With every sitemap GET failing, the sitemap phase contributes
nothing. -/
theorem sitemapPhase_inert (cands : List String) :
    ∀ acc : List String,
      (sitemapPhase (fun _ => false) (fun _ => none) 0 cands acc).1 = acc := by
  induction cands with
  | nil => intro acc; rfl
  | cons s rest ih =>
    intro acc
    rw [sitemapPhase]
    simp [ih]

/-- GETs attempted by the sitemap phase over its two candidates: the
second is reached exactly when the first did not answer 200. -/
theorem sitemapPhase_attempted (status200 : String → Bool)
    (net : String → Option SitemapDoc) (fuel : Nat)
    (s1 s2 : String) (acc : List String) :
    (sitemapPhase status200 net fuel [s1, s2] acc).2
      = if status200 s1 then [s1] else [s1, s2] := by
  rw [sitemapPhase]
  split
  · rfl
  · rw [sitemapPhase]
    split
    · rfl
    · rfl

/-- The two sitemap candidate URLs differ for every domain string. -/
theorem sitemap_candidates_distinct (d : String) :
    ("https://" ++ d ++ "/sitemap.xml")
      ≠ ("https://" ++ d ++ "/sitemap_index.xml") := by
  intro h
  have h2 := congrArg String.length h
  rw [String.length_append, String.length_append, String.length_append,
    String.length_append] at h2
  have e1 : "/sitemap.xml".length = 12 := rfl
  have e2 : "/sitemap_index.xml".length = 18 := rfl
  rw [e1, e2] at h2
  omega

/-! Lemmas about the Sitemap Resolver on the cyclic network -/

/-- On the self-referencing sitemap, a recursion budget of `n + 1` yields
the leaf URL once per completed recursion level: `n` copies. -/
theorem parse_sitemap_aux_cyclic (n : Nat) :
    parse_sitemap_aux cyclicNet (n + 1) "https://a.com/sitemap.xml"
      = some (List.replicate n "https://a.com/page1") := by
  induction n with
  | zero => rfl
  | succ k ih =>
    rw [show k + 1 + 1 = (k + 1) + 1 from rfl]
    rw [parse_sitemap_aux]
    simp only [cyclicNet]
    rw [if_pos (by rfl)]
    simp only [childLoop, ih]
    rw [List.nil_append]
    simp [List.replicate_succ']

/-! Lemmas about the Batch Orchestrator loop -/

/-- Every iterated item is appended to the processed trace, whatever its
outcome. -/
theorem batch_step_processed (analyze : String → Option SiteResult)
    (st : BatchState) (url : String) :
    (batch_step analyze st url).processed = st.processed ++ [url] := by
  unfold batch_step
  cases h : analyze url <;> simp only
  split <;> rfl

/-- The loop iterates its whole worklist: no outcome stops it early. -/
theorem batch_fold_processed (analyze : String → Option SiteResult)
    (rem : List String) :
    ∀ st : BatchState,
      (rem.foldl (batch_step analyze) st).processed
        = st.processed ++ rem := by
  induction rem with
  | nil => intro st; simp
  | cons x t ih =>
    intro st
    rw [List.foldl_cons, ih, batch_step_processed]
    simp

/-- One iteration appends to the failed list exactly when the item did not
succeed. -/
theorem batch_step_failed (analyze : String → Option SiteResult)
    (st : BatchState) (url : String) :
    (batch_step analyze st url).failed_urls
      = if analyzeOk analyze url then st.failed_urls
        else st.failed_urls ++ [url] := by
  unfold batch_step analyzeOk
  cases h : analyze url
  · rfl
  · simp only
    split <;> simp_all

/-- The loop's failed list is the unsuccessful part of its worklist, in
order. -/
theorem batch_fold_failed (analyze : String → Option SiteResult)
    (rem : List String) :
    ∀ st : BatchState,
      (rem.foldl (batch_step analyze) st).failed_urls
        = st.failed_urls ++ rem.filter (fun u => !(analyzeOk analyze u)) := by
  induction rem with
  | nil => intro st; simp
  | cons x t ih =>
    intro st
    rw [List.foldl_cons, ih, batch_step_failed, List.filter_cons]
    by_cases h : analyzeOk analyze x <;> simp [h]

/-! Claim theorems -/

/-- C1: the spec claims the Sitemap Resolver skips any sitemap URL already
processed in the current resolution tree and that a cyclic sitemap index
resolves to a finite list with each leaf URL appearing once.  The source
`parse_sitemap` carries no `visited` set at all: on the self-referencing
index `cyclicNet` it re-fetches the same sitemap at every recursion level,
and with recursion budget `n + 2` the single leaf URL appears `n + 1`
times — the duplication grows without bound as the interpreter's recursion
limit does, refuting both the skip and the appears-once guarantees. -/
theorem sitemap_cycle_leaf_dup : ∀ n : Nat,
    (parse_sitemap cyclicNet (n + 2) "https://a.com/sitemap.xml").count
      "https://a.com/page1" = n + 1 := by
  intro n
  rw [parse_sitemap, parse_sitemap_aux_cyclic (n + 1)]
  simp [List.count_replicate]

/-- C1 witness: at recursion budget 5 the leaf URL appears 4 times. -/
theorem sitemap_cycle_leaf_dup_wit :
    (parse_sitemap cyclicNet 5 "https://a.com/sitemap.xml").count
      "https://a.com/page1" = 4 :=
  sitemap_cycle_leaf_dup 3

/-- C2 counterexample: the claim says that when `sitemap.xml` is fetched
but contributes zero URLs, `sitemap_index.xml` is still attempted.  In
`c2stat`/`c2net` both candidates answer 200, `sitemap.xml` parses to zero
URLs and `sitemap_index.xml` holds `https://d.com/hidden`; yet the code
breaks after the 200 answer of `sitemap.xml`: only that candidate is
attempted and the hidden URL is not discovered. -/
theorem frontier_fallback_cex :
    (discover_all_urls "https://d.com" none c2stat c2net 2).attempted
      = ["https://d.com/sitemap.xml"] ∧
    "https://d.com/hidden" ∉
      (discover_all_urls "https://d.com" none c2stat c2net 2).urls ∧
    c2stat "https://d.com/sitemap.xml" = true ∧
    parse_sitemap c2net 2 "https://d.com/sitemap.xml" = [] ∧
    parse_sitemap c2net 2 "https://d.com/sitemap_index.xml"
      = ["https://d.com/hidden"] := by
  refine ⟨rfl, ?_, rfl, rfl, rfl⟩
  decide

/-- C2 amended: `discover_all_urls` tries `{domain}/sitemap.xml` then
`{domain}/sitemap_index.xml`, and the second is attempted exactly when the
GET of the first does not return HTTP 200 — the break fires on fetch
success, independently of how many URLs the first sitemap yields. -/
theorem frontier_fallback_break_on_200 (base : String)
    (soup : Option (List String)) (status200 : String → Bool)
    (net : String → Option SitemapDoc) (fuel : Nat) :
    (("https://" ++ netloc base ++ "/sitemap_index.xml") ∈
        (discover_all_urls base soup status200 net fuel).attempted
      ↔ status200 ("https://" ++ netloc base ++ "/sitemap.xml") = false) ∧
    ("https://" ++ netloc base ++ "/sitemap.xml") ∈
      (discover_all_urls base soup status200 net fuel).attempted := by
  unfold discover_all_urls
  simp only [sitemapCandidates]
  rw [sitemapPhase_attempted]
  by_cases h : status200 ("https://" ++ netloc base ++ "/sitemap.xml") = true
  · simp [h, Ne.symm (sitemap_candidates_distinct (netloc base))]
  · simp only [Bool.not_eq_true] at h
    simp [h]

/-- C2 amended witness: the break-on-200 behavior at the concrete
counterexample network. -/
theorem frontier_fallback_break_on_200_wit :
    (("https://" ++ netloc "https://d.com" ++ "/sitemap_index.xml") ∈
        (discover_all_urls "https://d.com" none c2stat c2net 2).attempted
      ↔ c2stat ("https://" ++ netloc "https://d.com" ++ "/sitemap.xml")
          = false) ∧
    ("https://" ++ netloc "https://d.com" ++ "/sitemap.xml") ∈
      (discover_all_urls "https://d.com" none c2stat c2net 2).attempted :=
  frontier_fallback_break_on_200 "https://d.com" none c2stat c2net 2

/-- C3 counterexample: the claim says a Text Generator failure makes
`analyze_website` return an overall failure with no SiteResult.  With
`c3env` (main page fetch succeeds, generator returns no text) the function
still returns `some` record — one whose `analysis` field is `None`. -/
theorem analyze_gen_failure_cex :
    (analyze_website c3env "https://b.com").isSome = true ∧
    ((analyze_website c3env "https://b.com").map (fun r => r.analysis))
      = some none := ⟨rfl, rfl⟩

/-- C3 amended: whenever the main page yields nonempty text and the
generator returns no text, `analyze_website` returns a SiteResult record
whose `analysis` field is absent; the callers, not `analyze_website`,
treat such a record as a failed analysis. -/
theorem analyze_gen_failure_record (env : AnalyzeEnv) (url m : String)
    (hm : env.pageText url = some m) (hne : (strTakeN m 8000 == "") = false)
    (hg : ∀ p, env.generate p = none) :
    ∃ r, analyze_website env url = some r ∧ r.analysis = none := by
  unfold analyze_website get_page_content
  rw [hm]
  simp only [Option.map_some']
  rw [if_neg (by simp [hne])]
  exact ⟨_, rfl, hg _⟩

/-- C3 amended witness at `c3env`. -/
theorem analyze_gen_failure_record_wit :
    c3env.pageText "https://b.com" = some "Main page text" ∧
    (strTakeN "Main page text" 8000 == "") = false ∧
    (∃ r, analyze_website c3env "https://b.com" = some r
        ∧ r.analysis = none) :=
  ⟨rfl, rfl,
    analyze_gen_failure_record c3env "https://b.com" "Main page text"
      rfl rfl (fun _ => rfl)⟩

/-- C4: the Categorizer lower-cases each URL's path and assigns the
category of the first matching rule of the fixed ordered table
(`specRules`), testing no later rule once one matches; in particular
`/about/careers` is classified `about`, not `careers`. -/
theorem categorizer_first_match_order :
    (∀ url : String, categoryOf url = specFirstMatch url) ∧
    categoryOf "https://x.com/about/careers" = Category.about ∧
    categoryOf "https://x.com/about/careers" ≠ Category.careers := by
  refine ⟨?_, rfl, by decide⟩
  intro url
  simp only [categoryOf, specFirstMatch, specRules, walkRules]

/-- C4 witness: the refinement instantiated at a concrete URL. -/
theorem categorizer_first_match_order_wit :
    categoryOf "https://x.com/pricing" = specFirstMatch "https://x.com/pricing"
      ∧ categoryOf "https://x.com/pricing" = Category.pricing :=
  ⟨categorizer_first_match_order.1 "https://x.com/pricing", rfl⟩

/-- C5: for every CategorizedSet and cap the Priority Selector returns at
most `maxUrls` URLs, its output begins the fixed priority-table walk
(each category contributing up to its cap in insertion order), it never
draws a URL from outside the nine table categories — `testimonials`,
`contact`, `careers`, `news` and `other` are never selected — and it is
stable across repeated calls on equal inputs (the function is pure, so
the last conjunct is definitional). -/
theorem selector_bound_and_order (c : CategorizedSet) (maxUrls : Nat) :
    (select_priority_urls c maxUrls).length ≤ maxUrls ∧
    select_priority_urls c maxUrls <+: priorityWalk c ∧
    (∀ u ∈ select_priority_urls c maxUrls,
        u ∈ c.homepage ∨ u ∈ c.about ∨ u ∈ c.products ∨ u ∈ c.services ∨
        u ∈ c.pricing ∨ u ∈ c.case_studies ∨ u ∈ c.blog ∨ u ∈ c.team ∨
        u ∈ c.resources) ∧
    (∀ c' : CategorizedSet, c' = c →
        select_priority_urls c' maxUrls = select_priority_urls c maxUrls) := by
  refine ⟨List.length_take_le maxUrls _, select_is_walk_pre c maxUrls, ?_, ?_⟩
  · intro u hu
    have hw := select_is_walk_pre c maxUrls
    exact priorityWalk_mem c u (hw.sublist.subset hu)
  · intro c' h
    rw [h]

/-- C5 witness at a concrete CategorizedSet and cap 2. -/
theorem selector_bound_and_order_wit :
    (select_priority_urls catsW 2).length ≤ 2 ∧
    "https://a.com/" ∈ select_priority_urls catsW 2 ∧
    ("https://a.com/" ∈ catsW.homepage ∨ "https://a.com/" ∈ catsW.about ∨
     "https://a.com/" ∈ catsW.products ∨ "https://a.com/" ∈ catsW.services ∨
     "https://a.com/" ∈ catsW.pricing ∨ "https://a.com/" ∈ catsW.case_studies ∨
     "https://a.com/" ∈ catsW.blog ∨ "https://a.com/" ∈ catsW.team ∨
     "https://a.com/" ∈ catsW.resources) := by
  have h := selector_bound_and_order catsW 2
  exact ⟨h.1, by decide, h.2.2.1 "https://a.com/" (by decide)⟩

/-- C6: the frontier's output holds each exact URL string at most once
for every input; and on the concrete run whose document carries two links
resolving to `https://a.com/x` while the sitemap lists that same URL, the
discovered set holds it exactly once. -/
theorem frontier_dedup_exact :
    (∀ (base : String) (soup : Option (List String))
        (status200 : String → Bool) (net : String → Option SitemapDoc)
        (fuel : Nat),
        (discover_all_urls base soup status200 net fuel).urls.Nodup) ∧
    ((discover_all_urls "https://a.com" (some ["/x", "https://a.com/x"])
        demoStat demoNet 2).urls.count "https://a.com/x" = 1) :=
  ⟨discover_nodup, rfl⟩

/-- C6 witness: duplicate-freedom instantiated at the concrete run. -/
theorem frontier_dedup_exact_wit :
    (discover_all_urls "https://a.com" (some ["/x", "https://a.com/x"])
      demoStat demoNet 2).urls.Nodup :=
  frontier_dedup_exact.1 "https://a.com" (some ["/x", "https://a.com/x"])
    demoStat demoNet 2

/-- C7: at batch start the persisted completed set is loaded when present
while a missing or corrupt checkpoint yields the empty set, and the items
iterated are exactly `remaining = worklist − completed` in worklist order;
on the concrete 3-item worklist with 2 checkpointed as complete, only the
third is processed. -/
theorem batch_resume_from_checkpoint
    (analyze : String → Option SiteResult) (urls : List String)
    (cp : Option (Option (List String))) (h : urls ≠ []) :
    (∃ run, batch_analyze_websites analyze urls cp = some run ∧
        run.processed = remainingOf urls cp) ∧
    (∀ u : String, u ∈ remainingOf urls cp ↔
        u ∈ urls ∧ u ∉ load_completed cp) ∧
    load_completed none = [] ∧
    load_completed (some none) = [] ∧
    ((batch_analyze_websites alwaysFail
        ["https://a.com", "https://b.com", "https://c.com"]
        (some (some ["https://a.com", "https://b.com"]))).map
          (fun r => r.processed) = some ["https://c.com"]) := by
  refine ⟨?_, ?_, rfl, rfl, rfl⟩
  · unfold batch_analyze_websites
    have hie : urls.isEmpty = false := by
      cases urls with
      | nil => exact absurd rfl h
      | cons a t => rfl
    rw [hie]
    simp only [Bool.false_eq_true, if_false]
    by_cases hr : (urls.filter (fun u =>
        !((foldInsert [] (load_completed cp)).contains u))).isEmpty = true
    · rw [if_pos hr]
      refine ⟨_, rfl, ?_⟩
      simp only [remainingOf]
      rw [List.isEmpty_iff] at hr
      rw [hr]
    · rw [if_neg hr]
      refine ⟨_, rfl, ?_⟩
      simp only [batch_fold_processed]
      rw [List.nil_append]
      rfl
  · intro u
    unfold remainingOf
    rw [List.mem_filter]
    have h3 : ((!(foldInsert [] (load_completed cp)).contains u) = true)
        ↔ u ∉ load_completed cp := by
      simp [foldInsert_mem]
    rw [h3]

/-- C7 witness at the 3-item worklist. -/
theorem batch_resume_from_checkpoint_wit :
    (["https://a.com", "https://b.com", "https://c.com"] : List String) ≠ [] ∧
    (∃ run, batch_analyze_websites alwaysFail
        ["https://a.com", "https://b.com", "https://c.com"]
        (some (some ["https://a.com", "https://b.com"])) = some run ∧
      run.processed = remainingOf
        ["https://a.com", "https://b.com", "https://c.com"]
        (some (some ["https://a.com", "https://b.com"]))) :=
  ⟨by decide,
    (batch_resume_from_checkpoint alwaysFail
      ["https://a.com", "https://b.com", "https://c.com"]
      (some (some ["https://a.com", "https://b.com"])) (by decide)).1⟩

/-- C8: in every batch run that reaches its loop, the items that fail —
a generator failure included — are exactly the recorded failed
identifiers, in order, and the run still iterates every remaining item;
the final summary records the completed count, failed count and failed
identifiers, and the checkpoint file is removed.  On the concrete worklist
`["a.com", "b.com"]` where `a.com` succeeds and `b.com`'s generation
fails, the summary is `completed = 1`, `failed = 1`,
`failed_urls = ["https://b.com"]` and no checkpoint file remains. -/
theorem batch_partial_failure
    (analyze : String → Option SiteResult) (urls : List String)
    (cp : Option (Option (List String)))
    (h1 : urls ≠ []) (h2 : remainingOf urls cp ≠ []) :
    (∃ run, batch_analyze_websites analyze urls cp = some run ∧
        run.failed_urls = (remainingOf urls cp).filter
          (fun u => !(analyzeOk analyze u)) ∧
        run.summary = some ⟨urls.length, run.completed.length,
          run.failed_urls.length, run.failed_urls, run.all_results⟩ ∧
        run.checkpointAfter = none) ∧
    ((batch_analyze_websites scenAnalyze
        (["a.com", "b.com"].map normalize_url) none).map
      (fun r => (r.summary.map (fun s =>
          (s.total_urls, s.completed, s.failed, s.failed_urls)),
        r.checkpointAfter))
      = some (some (2, 1, 1, ["https://b.com"]), none)) := by
  refine ⟨?_, rfl⟩
  unfold batch_analyze_websites
  have hie : urls.isEmpty = false := by
    cases urls with
    | nil => exact absurd rfl h1
    | cons a t => rfl
  rw [hie]
  simp only [Bool.false_eq_true, if_false]
  by_cases hr : (urls.filter (fun u =>
      !((foldInsert [] (load_completed cp)).contains u))).isEmpty = true
  · rw [List.isEmpty_iff] at hr
    exact absurd hr h2
  · rw [if_neg hr]
    refine ⟨_, rfl, ?_, rfl, rfl⟩
    simp only [batch_fold_failed]
    rw [List.nil_append]
    rfl

/-- C8 witness at the end-to-end scenario worklist. -/
theorem batch_partial_failure_wit :
    ((["a.com", "b.com"].map normalize_url) ≠ []) ∧
    (remainingOf (["a.com", "b.com"].map normalize_url) none ≠ []) ∧
    (∃ run, batch_analyze_websites scenAnalyze
        (["a.com", "b.com"].map normalize_url) none = some run ∧
      run.failed_urls = (remainingOf (["a.com", "b.com"].map normalize_url)
          none).filter (fun u => !(analyzeOk scenAnalyze u)) ∧
      run.summary = some ⟨(["a.com", "b.com"].map normalize_url).length,
        run.completed.length, run.failed_urls.length, run.failed_urls,
        run.all_results⟩ ∧
      run.checkpointAfter = none) := by
  have h2 : remainingOf (["a.com", "b.com"].map normalize_url) none ≠ [] := by
    decide
  exact ⟨by decide, h2,
    (batch_partial_failure scenAnalyze (["a.com", "b.com"].map normalize_url)
      none (by decide) h2).1⟩

/-- C9: for distinct input URLs, each URL lands in exactly the one
category the classifier assigns it (with `other` as total fallback, so
membership is characterized for every category), the category list
lengths sum to the input length, each list is duplicate-free, different
categories share no URL, and each list preserves the input's discovery
order as a sublist. -/
theorem categorize_partition (urls : List String) (hnd : urls.Nodup) :
    (∀ u ∈ urls, ∀ cat : Category,
        (u ∈ getCat (categorize_urls urls) cat ↔ cat = categoryOf u)) ∧
    ((allCategories.map
        (fun cat => (getCat (categorize_urls urls) cat).length)).sum
      = urls.length) ∧
    (∀ cat : Category, (getCat (categorize_urls urls) cat).Nodup) ∧
    (∀ cat cat' : Category, cat ≠ cat' → ∀ u : String,
        u ∈ getCat (categorize_urls urls) cat →
        u ∉ getCat (categorize_urls urls) cat') ∧
    (∀ cat : Category, (getCat (categorize_urls urls) cat).Sublist urls) := by
  refine ⟨?_, categorize_length_sum urls, ?_, ?_, ?_⟩
  · intro u hu cat
    rw [getCat_categorize, List.mem_filter]
    constructor
    · rintro ⟨-, hb⟩
      exact (beq_iff_eq.mp hb).symm
    · rintro rfl
      exact ⟨hu, by simp⟩
  · intro cat
    rw [getCat_categorize]
    exact hnd.filter _
  · intro cat cat' hne u hu hcon
    rw [getCat_categorize, List.mem_filter] at hu hcon
    exact hne ((beq_iff_eq.mp hu.2).symm.trans (beq_iff_eq.mp hcon.2))
  · intro cat
    rw [getCat_categorize]
    exact List.filter_sublist _

/-- C9 witness at a concrete 3-URL input. -/
theorem categorize_partition_wit :
    (["https://a.com/", "https://a.com/about",
        "https://a.com/xyz"] : List String).Nodup ∧
    ((allCategories.map (fun cat =>
        (getCat (categorize_urls ["https://a.com/", "https://a.com/about",
          "https://a.com/xyz"]) cat).length)).sum = 3) := by
  have h := categorize_partition
    ["https://a.com/", "https://a.com/about", "https://a.com/xyz"] (by decide)
  exact ⟨by decide, h.2.1⟩

/-- C10: the same-domain filter (exact netloc equality against the base
URL) applies only to hyperlinks extracted from the page document — with
the sitemap branch inert, everything discovered has the base's netloc —
while URLs contributed by a sitemap are added with no domain check: the
concrete run discovers `https://other.com/z`, whose netloc differs from
the base's. -/
theorem frontier_links_same_domain_only :
    (∀ (base : String) (hrefs : List String) (u : String),
        u ∈ (discover_all_urls base (some hrefs) (fun _ => false)
              (fun _ => none) 0).urls →
        netloc u = netloc base) ∧
    ("https://other.com/z" ∈ (discover_all_urls "https://a.com"
        (some ["/x", "https://a.com/x"]) demoStat demoNet 2).urls ∧
      netloc "https://other.com/z" ≠ netloc "https://a.com") := by
  constructor
  · intro base hrefs u hu
    unfold discover_all_urls at hu
    simp only [sitemapPhase_inert] at hu
    rcases addLinks_mem base hrefs [] u hu with h | h
    · exact absurd h (List.not_mem_nil u)
    · exact h
  · exact ⟨by decide, by decide⟩

/-- C10 witness: the link-branch filter instantiated at a concrete run. -/
theorem frontier_links_same_domain_only_wit :
    "https://a.com/x" ∈ (discover_all_urls "https://a.com"
        (some ["/x"]) (fun _ => false) (fun _ => none) 0).urls ∧
    netloc "https://a.com/x" = netloc "https://a.com" :=
  ⟨by decide,
    frontier_links_same_domain_only.1 "https://a.com" ["/x"]
      "https://a.com/x" (by decide)⟩
